import Mathlib

/-!
Shallow embedding of the Kendryte K230D mask-ROM USB loader (`src/main.rs`)
and a verification of the specification's claims about its protocol layer.

The embedding models the program's pure protocol logic over explicit inputs:
transfer completions delivered by the USB transport are an environment
`Nat → Completion` (completion time in microseconds, device-reported status,
and response data), file contents are a `List Nat` of bytes, and the
device-visible behaviour of a session is the list of transfers it issues.
-/

namespace Kendryte

/-- USB vendor id matched during enumeration (`KENDRYTE_VID`). -/
def KENDRYTE_VID : Nat := 0x29f1

/-- USB product id matched during enumeration (`K230D_PID`). -/
def K230D_PID : Nat := 0x0230

/-- Total window, in microseconds, of the interface-claim retry loop
(`CLAIM_INTERFACE_TIMEOUT = Duration::from_secs(1)`). -/
def CLAIM_INTERFACE_TIMEOUT : Nat := 1000000

/-- Sleep, in microseconds, between interface-claim attempts
(`CLAIM_INTERFACE_PERIOD = Duration::from_micros(200)`). -/
def CLAIM_INTERFACE_PERIOD : Nat := 200

/-- Vendor command opcode `EP0_GET_CPU_INFO`. -/
def EP0_GET_CPU_INFO : Nat := 0x0

/-- Vendor command opcode `EP0_SET_DATA_ADDRESS`. -/
def EP0_SET_DATA_ADDRESS : Nat := 0x1

/-- Vendor command opcode `EP0_SET_DATA_LENGTH`. -/
def EP0_SET_DATA_LENGTH : Nat := 0x2

/-- Vendor command opcode `EP0_FLUSH_CACHES`. -/
def EP0_FLUSH_CACHES : Nat := 0x3

/-- Vendor command opcode `EP0_PROG_START`. -/
def EP0_PROG_START : Nat := 0x4

/-- `DRAM_BASE`. -/
def DRAM_BASE : Nat := 0x00000000

/-- `DRAM_RUN_BASE = DRAM_BASE + 0x08000000`. -/
def DRAM_RUN_BASE : Nat := DRAM_BASE + 0x08000000

/-- `SRAM_BASE`. -/
def SRAM_BASE : Nat := 0x80300000

/-- `SRAM_RUN_BASE = SRAM_BASE + 0x00060000`. -/
def SRAM_RUN_BASE : Nat := SRAM_BASE + 0x00060000

/-- `MASK_ROM_BASE`. -/
def MASK_ROM_BASE : Nat := 0x91200000

/-- Bulk-out chunk size (`CHUNK_SIZE = 512`). -/
def CHUNK_SIZE : Nat := 512

/-- The fixed deadline raced against every transfer, in microseconds
(the local `timeout = Duration::from_secs(5)` of `cmd_in`, `cmd_out`, and the
bulk-out block in `main`). -/
def TRANSFER_TIMEOUT : Nat := 5000000

/-- The error value a timed transfer produces, mirroring `std::io::Error`:
`timedOut` is `ErrorKind::TimedOut.into()`, `other e` is
`Error::other` applied to the device-reported transfer error `e`. -/
inductive IoError
  | timedOut : IoError
  | other : Nat → IoError
deriving DecidableEq

/-- The transport's resolution of one submitted transfer: `time` is the
number of microseconds after submission at which the transfer future
resolves, `status` is the device-reported completion status (`none` =
success, `some e` = transfer error `e`), and `data` is the response payload
(meaningful for control-in transfers only). -/
structure Completion where
  time : Nat
  status : Option Nat
  data : List Nat
deriving DecidableEq

/-- `nusb::transfer::ControlType` (only `Vendor` is used by the program). -/
inductive ControlType
  | standard
  | cls
  | vendor
deriving DecidableEq

/-- `nusb::transfer::Recipient` (only `Device` is used by the program). -/
inductive Recipient
  | device
  | iface
  | endpoint
  | other
deriving DecidableEq

/-- The setup packet of a `ControlIn` transfer as built by `cmd_in`. -/
structure ControlIn where
  control_type : ControlType
  recipient : Recipient
  request : Nat
  value : Nat
  index : Nat
  length : Nat
deriving DecidableEq

/-- The setup packet and payload of a `ControlOut` transfer as built by
`cmd_out`. -/
structure ControlOut where
  control_type : ControlType
  recipient : Recipient
  request : Nat
  value : Nat
  index : Nat
  data : List Nat
deriving DecidableEq

/-- The `ControlIn` value `cmd_in` submits: vendor type, device recipient,
`value = (val >> 16) as u16`, `index = val as u16`,
`length = buf.len() as u16`. The `as u16` casts are the `% 65536`. -/
def cmd_in_setup (buf_len request val : Nat) : ControlIn :=
  { control_type := ControlType.vendor
    recipient := Recipient.device
    request := request
    value := (val >>> 16) % 65536
    index := val % 65536
    length := buf_len % 65536 }

/-- The `ControlOut` value `cmd_out` submits: vendor type, device recipient,
`value = (val >> 16) as u16`, `index = val as u16`, empty payload
(`data: &[]`). -/
def cmd_out_setup (request val : Nat) : ControlOut :=
  { control_type := ControlType.vendor
    recipient := Recipient.device
    request := request
    value := (val >>> 16) % 65536
    index := val % 65536
    data := [] }

/-- The buffer update and discarded `_res` computed by `cmd_in` when the
transport resolves the transfer as `c`: `block_on(fut.or(timer))` polls the
transfer future first, so the transfer wins whenever it resolves no later
than the deadline; on success the first `comp.data.len()` bytes of `buf` are
overwritten by `comp.data` (`buf[..n].copy_from_slice(&comp.data)`,
which panics — modelled as `none` — when `n > buf.len()`); on device error
the buffer is untouched and the status is mapped through
`std::io::Error::other`; when the timer wins, the transfer future is dropped
before the copy and the result is `TimedOut`. -/
def cmd_in_run (c : Completion) (buf : List Nat) :
    Option (List Nat × Except IoError Nat) :=
  if c.time ≤ TRANSFER_TIMEOUT then
    match c.status with
    | some e => some (buf, Except.error (IoError.other e))
    | none =>
      if c.data.length ≤ buf.length then
        some (c.data ++ buf.drop c.data.length, Except.ok c.data.length)
      else
        none
  else
    some (buf, Except.error IoError.timedOut)

/-- The discarded `_res` computed by `cmd_out` under completion `c`: same
race against the 5 s deadline, device status mapped through
`std::io::Error::other`, no data. -/
def cmd_out_run (c : Completion) : Except IoError Unit :=
  if c.time ≤ TRANSFER_TIMEOUT then
    match c.status with
    | some e => Except.error (IoError.other e)
    | none => Except.ok ()
  else
    Except.error IoError.timedOut

/-- The discarded result computed by the bulk-out block in `main`'s chunk
loop under completion `c`: identical race and status mapping. -/
def bulk_out_run (c : Completion) : Except IoError Unit :=
  if c.time ≤ TRANSFER_TIMEOUT then
    match c.status with
    | some e => Except.error (IoError.other e)
    | none => Except.ok ()
  else
    Except.error IoError.timedOut

/-- UTF-8 continuation byte test: `0x80 ≤ b ≤ 0xBF`. -/
def isCont (b : Nat) : Bool :=
  decide (0x80 ≤ b) && decide (b ≤ 0xBF)

/-- One step of UTF-8 validation and decoding as performed by
`str::from_utf8`: decides, from the lead byte `b0` and the following bytes
`t`, which sequence length applies (one-byte ASCII, and the standard
two/three/four-byte forms with overlong and surrogate encodings rejected),
and prepends the decoded scalar to the decode `r1`/`r2`/`r3`/`r4` of the
bytes after a 1/2/3/4-byte sequence respectively. Bytes past the lead byte
are read with `getD _ 0`; the default 0 is never a valid continuation byte,
so a truncated sequence is rejected exactly as `from_utf8` rejects it. -/
def utf8Step (b0 : Nat) (t : List Nat) (r1 r2 r3 r4 : Option (List Nat)) :
    Option (List Nat) :=
  if b0 ≤ 0x7F then
    r1.map (fun cs => b0 :: cs)
  else if 0xC2 ≤ b0 ∧ b0 ≤ 0xDF then
    if isCont (t.getD 0 0) then
      r2.map (fun cs => ((b0 - 0xC0) * 64 + (t.getD 0 0 - 0x80)) :: cs)
    else none
  else if b0 = 0xE0 then
    if (0xA0 ≤ t.getD 0 0 ∧ t.getD 0 0 ≤ 0xBF) ∧ isCont (t.getD 1 0) then
      r3.map
        (fun cs =>
          ((b0 - 0xE0) * 4096 + (t.getD 0 0 - 0x80) * 64 + (t.getD 1 0 - 0x80)) :: cs)
    else none
  else if (0xE1 ≤ b0 ∧ b0 ≤ 0xEC) ∨ b0 = 0xEE ∨ b0 = 0xEF then
    if isCont (t.getD 0 0) ∧ isCont (t.getD 1 0) then
      r3.map
        (fun cs =>
          ((b0 - 0xE0) * 4096 + (t.getD 0 0 - 0x80) * 64 + (t.getD 1 0 - 0x80)) :: cs)
    else none
  else if b0 = 0xED then
    if (0x80 ≤ t.getD 0 0 ∧ t.getD 0 0 ≤ 0x9F) ∧ isCont (t.getD 1 0) then
      r3.map
        (fun cs =>
          ((b0 - 0xE0) * 4096 + (t.getD 0 0 - 0x80) * 64 + (t.getD 1 0 - 0x80)) :: cs)
    else none
  else if b0 = 0xF0 then
    if (0x90 ≤ t.getD 0 0 ∧ t.getD 0 0 ≤ 0xBF) ∧ isCont (t.getD 1 0) ∧ isCont (t.getD 2 0) then
      r4.map
        (fun cs =>
          ((b0 - 0xF0) * 262144 + (t.getD 0 0 - 0x80) * 4096 +
            (t.getD 1 0 - 0x80) * 64 + (t.getD 2 0 - 0x80)) :: cs)
    else none
  else if 0xF1 ≤ b0 ∧ b0 ≤ 0xF3 then
    if isCont (t.getD 0 0) ∧ isCont (t.getD 1 0) ∧ isCont (t.getD 2 0) then
      r4.map
        (fun cs =>
          ((b0 - 0xF0) * 262144 + (t.getD 0 0 - 0x80) * 4096 +
            (t.getD 1 0 - 0x80) * 64 + (t.getD 2 0 - 0x80)) :: cs)
    else none
  else if b0 = 0xF4 then
    if (0x80 ≤ t.getD 0 0 ∧ t.getD 0 0 ≤ 0x8F) ∧ isCont (t.getD 1 0) ∧ isCont (t.getD 2 0) then
      r4.map
        (fun cs =>
          ((b0 - 0xF0) * 262144 + (t.getD 0 0 - 0x80) * 4096 +
            (t.getD 1 0 - 0x80) * 64 + (t.getD 2 0 - 0x80)) :: cs)
    else none
  else none

/-- UTF-8 validation and decoding as performed by `str::from_utf8`, with
`fuel` an upper bound on the number of decoded scalars (each scalar consumes
at least one byte): `some` of the decoded scalar values when the bytes are
valid UTF-8, `none` otherwise. -/
def utf8DecodeAux : Nat → List Nat → Option (List Nat)
  | _, [] => some []
  | 0, _ :: _ => none
  | fuel + 1, b0 :: t =>
    utf8Step b0 t
      (utf8DecodeAux fuel t)
      (utf8DecodeAux fuel (t.drop 1))
      (utf8DecodeAux fuel (t.drop 2))
      (utf8DecodeAux fuel (t.drop 3))

/-- `str::from_utf8` applied to a whole byte slice. -/
def utf8Decode (l : List Nat) : Option (List Nat) :=
  utf8DecodeAux l.length l

/-- `dev_info`: a 32-byte zero-initialised buffer is passed to `cmd_in` with
request `EP0_GET_CPU_INFO` and parameter 0, the (possibly updated) buffer is
decoded with `from_utf8(&buf).unwrap()`, and the decoded banner is printed.
`none` models a panic (either the `copy_from_slice` length mismatch inside
`cmd_in` or the `unwrap` on an undecodable buffer); `some cs` is the banner
printed, as a list of scalar values. -/
def dev_info (c : Completion) : Option (List Nat) :=
  match cmd_in_run c (List.replicate 32 0) with
  | none => none
  | some r => utf8Decode r.1

/-- One pass of `main`'s 512-byte read loop over the remaining file bytes,
with `fuel` an upper bound on the number of reads: each `reader.read` on a
non-empty remainder returns the next `min CHUNK_SIZE remaining` bytes, a
read on an exhausted source returns 0 bytes and the loop breaks. -/
def chunksAux : Nat → List Nat → List (List Nat)
  | _, [] => []
  | 0, _ :: _ => []
  | fuel + 1, b :: t =>
    (b :: t).take CHUNK_SIZE :: chunksAux fuel ((b :: t).drop CHUNK_SIZE)

/-- The sequence of chunks `main`'s read loop sends for a file with the
given bytes. -/
def chunks (l : List Nat) : List (List Nat) :=
  chunksAux l.length l

/-- The chunk loop of `main`'s `Run` branch, with `fuel` an upper bound on
the iteration count and `k` the index of the next transfer in the session:
for each non-empty chunk a bulk-out transfer of exactly that chunk is
issued, its timed result is computed (`bulk_out_run`) and discarded, and the
loop proceeds to the next chunk unconditionally. Returns the bulk transfers
issued and the discarded results, in order. -/
def load_loop_aux (env : Nat → Completion) :
    Nat → Nat → List Nat → List (List Nat) × List (Except IoError Unit)
  | _, _, [] => ([], [])
  | 0, _, _ :: _ => ([], [])
  | fuel + 1, k, b :: t =>
    let res := bulk_out_run (env k)
    let rest := load_loop_aux env fuel (k + 1) ((b :: t).drop CHUNK_SIZE)
    ((b :: t).take CHUNK_SIZE :: rest.1, res :: rest.2)

/-- The chunk loop of `main`'s `Run` branch on a whole file. -/
def load_loop (env : Nat → Completion) (k : Nat) (data : List Nat) :
    List (List Nat) × List (Except IoError Unit) :=
  load_loop_aux env data.length k data

/-- The memory space selected on the command line (`enum Space`). -/
inductive Space
  | sram
  | dram
deriving DecidableEq

/-- The target address `main` computes for a `Run` command:
`if space == Space::Dram { DRAM_RUN_BASE } else { SRAM_RUN_BASE }`. -/
def run_addr (space : Space) : Nat :=
  if space = Space.dram then DRAM_RUN_BASE else SRAM_RUN_BASE

/-- The requested operation (`enum Command`); for `Run` the file name is
replaced by the bytes the opened file yields. -/
inductive Cmd
  | cpuInfo
  | rom
  | run : Space → List Nat → Cmd

/-- One device-visible transfer issued by the session. -/
inductive Transfer
  | controlIn : ControlIn → Transfer
  | controlOut : ControlOut → Transfer
  | bulkOut : List Nat → Transfer
deriving DecidableEq

/-- The device-visible behaviour of `main` after the interface is claimed
and the endpoints are resolved: the ordered list of transfers issued, and
the discarded fire-and-forget results computed along the way.
Transfer `k` of the session resolves as `env k`. `dev_info` runs first,
unconditionally; if it panics (`none`) the process aborts after its single
control-in transfer. `CpuInfo` does nothing further; `Rom` issues
`run_code(MASK_ROM_BASE)`; `Run` issues `set_code_addr(addr)`, the chunk
loop, then `run_code(addr)`. -/
def main_session (env : Nat → Completion) (cmd : Cmd) :
    List Transfer × List (Except IoError Unit) :=
  match dev_info (env 0) with
  | none => ([Transfer.controlIn (cmd_in_setup 32 EP0_GET_CPU_INFO 0)], [])
  | some _ =>
    match cmd with
    | Cmd.cpuInfo => ([Transfer.controlIn (cmd_in_setup 32 EP0_GET_CPU_INFO 0)], [])
    | Cmd.rom =>
      ([Transfer.controlIn (cmd_in_setup 32 EP0_GET_CPU_INFO 0),
        Transfer.controlOut (cmd_out_setup EP0_PROG_START MASK_ROM_BASE)],
       [cmd_out_run (env 1)])
    | Cmd.run space file =>
      let addr := run_addr space
      let l := load_loop env 2 file
      (Transfer.controlIn (cmd_in_setup 32 EP0_GET_CPU_INFO 0) ::
         Transfer.controlOut (cmd_out_setup EP0_SET_DATA_ADDRESS addr) ::
         (l.1.map Transfer.bulkOut ++
           [Transfer.controlOut (cmd_out_setup EP0_PROG_START addr)]),
       cmd_out_run (env 1) ::
         (l.2 ++ [cmd_out_run (env (2 + (chunks file).length))]))

/-- `claim_interface`'s retry loop, idealised so that a claim attempt itself
takes no time: `t` is the elapsed time in microseconds since the first
attempt, `claim t` tells whether the attempt made at elapsed time `t`
succeeds. While `t` is within the 1 s window an attempt is made; on success
the claimed interface is returned at once (`Sum.inl` of the success time),
on failure the thread sleeps exactly `CLAIM_INTERFACE_PERIOD` and retries;
once the window is exceeded the loop reports the claim failure (`Sum.inr` of
the time at which the error is returned). Also returns the elapsed times of
the attempts made. -/
def claim_interface_loop (claim : Nat → Bool) (t : Nat) :
    List Nat × (Nat ⊕ Nat) :=
  if t ≤ CLAIM_INTERFACE_TIMEOUT then
    if claim t then
      ([t], Sum.inl t)
    else
      let r := claim_interface_loop claim (t + CLAIM_INTERFACE_PERIOD)
      (t :: r.1, r.2)
  else
    ([], Sum.inr t)
termination_by CLAIM_INTERFACE_TIMEOUT + CLAIM_INTERFACE_PERIOD - t
decreasing_by
  simp [CLAIM_INTERFACE_TIMEOUT, CLAIM_INTERFACE_PERIOD] at *
  omega

/-- `claim_interface`: the retry loop started at elapsed time 0. -/
def claim_interface (claim : Nat → Bool) : List Nat × (Nat ⊕ Nat) :=
  claim_interface_loop claim 0

theorem utf8Decode_ascii_cons {b : Nat} (hb : b ≤ 0x7F) (l : List Nat) :
    utf8Decode (b :: l) = (utf8Decode l).map (fun cs => b :: cs) := by
  show utf8DecodeAux (l.length + 1) (b :: l) = _
  simp only [utf8DecodeAux]
  unfold utf8Step
  rw [if_pos hb]
  rfl

theorem utf8Decode_replicate_zero (k : Nat) :
    utf8Decode (List.replicate k 0) = some (List.replicate k 0) := by
  induction k with
  | zero => rfl
  | succ k ih =>
    rw [List.replicate_succ, utf8Decode_ascii_cons (by omega), ih]
    rfl

theorem utf8Decode_ascii_append {text : List Nat} (h : ∀ b ∈ text, b ≤ 0x7F)
    (rest : List Nat) :
    utf8Decode (text ++ rest) = (utf8Decode rest).map (fun cs => text ++ cs) := by
  induction text with
  | nil => cases hr : utf8Decode rest <;> simp [hr]
  | cons b t ih =>
    rw [List.cons_append, utf8Decode_ascii_cons (h b (List.mem_cons_self b t))]
    rw [ih (fun x hx => h x (List.mem_cons_of_mem b hx))]
    cases hr : utf8Decode rest <;> simp [hr]

theorem utf8Decode_cont_head (rest : List Nat) : utf8Decode (0x80 :: rest) = none := by
  show utf8DecodeAux (rest.length + 1) (0x80 :: rest) = none
  simp only [utf8DecodeAux]
  unfold utf8Step
  norm_num

theorem chunksAux_nil (fuel : Nat) : chunksAux fuel [] = [] := by
  cases fuel <;> rfl

theorem chunksAux_congr :
    ∀ f₁ f₂ (l : List Nat), l.length ≤ f₁ → l.length ≤ f₂ →
      chunksAux f₁ l = chunksAux f₂ l := by
  have hC : 0 < CHUNK_SIZE := by decide
  intro f₁
  induction f₁ with
  | zero =>
    intro f₂ l h1 h2
    have : l = [] := List.length_eq_zero.mp (Nat.le_zero.mp h1)
    subst this
    rw [chunksAux_nil, chunksAux_nil]
  | succ f ih =>
    intro f₂ l h1 h2
    cases l with
    | nil => rw [chunksAux_nil, chunksAux_nil]
    | cons b t =>
      cases f₂ with
      | zero => simp at h2
      | succ g =>
        simp only [chunksAux]
        congr 1
        apply ih
        · simp only [List.length_drop, List.length_cons]
          simp only [List.length_cons] at h1
          omega
        · simp only [List.length_drop, List.length_cons]
          simp only [List.length_cons] at h2
          omega

theorem chunks_cons (b : Nat) (t : List Nat) :
    chunks (b :: t) = (b :: t).take CHUNK_SIZE :: chunks ((b :: t).drop CHUNK_SIZE) := by
  have hC : 0 < CHUNK_SIZE := by decide
  show chunksAux (b :: t).length (b :: t) = _
  simp only [List.length_cons, chunksAux]
  congr 1
  unfold chunks
  apply chunksAux_congr
  · simp only [List.length_drop, List.length_cons]
    omega
  · exact le_rfl

theorem chunks_sizes (l : List Nat) :
    (chunks l).map List.length =
      List.replicate (l.length / CHUNK_SIZE) CHUNK_SIZE ++
        (if l.length % CHUNK_SIZE = 0 then [] else [l.length % CHUNK_SIZE]) := by
  have key : ∀ n (l : List Nat), l.length ≤ n →
      (chunks l).map List.length =
        List.replicate (l.length / CHUNK_SIZE) CHUNK_SIZE ++
          (if l.length % CHUNK_SIZE = 0 then [] else [l.length % CHUNK_SIZE]) := by
    intro n
    induction n with
    | zero =>
      intro l hl
      have : l = [] := List.length_eq_zero.mp (Nat.le_zero.mp hl)
      subst this
      simp [chunks, chunksAux]
    | succ n ih =>
      intro l hl
      cases l with
      | nil => simp [chunks, chunksAux]
      | cons b t =>
        have hC : CHUNK_SIZE = 512 := rfl
        rw [chunks_cons, List.map_cons,
          ih ((b :: t).drop CHUNK_SIZE)
            (by
              simp only [List.length_drop, List.length_cons]
              simp only [List.length_cons] at hl
              omega),
          List.length_take, List.length_drop]
        simp only [List.length_cons, hC]
        by_cases h5 : 512 ≤ t.length + 1
        · have e1 : min 512 (t.length + 1) = 512 := by omega
          have e2 : (t.length + 1 - 512) % 512 = (t.length + 1) % 512 := by omega
          have e3 : (t.length + 1) / 512 = (t.length + 1 - 512) / 512 + 1 := by omega
          rw [e1, e2, e3, List.replicate_succ, List.cons_append]
        · have e1 : min 512 (t.length + 1) = t.length + 1 := by omega
          have e2 : t.length + 1 - 512 = 0 := by omega
          have e3 : (t.length + 1) / 512 = 0 := by omega
          have e4 : (t.length + 1) % 512 = t.length + 1 := by omega
          have e5 : ¬((t.length + 1) % 512 = 0) := by omega
          rw [e1, e2, e3, if_neg e5, e4]
          simp
  exact key l.length l le_rfl

theorem chunks_flatten (l : List Nat) : (chunks l).flatten = l := by
  have hC : 0 < CHUNK_SIZE := by decide
  have key : ∀ n (l : List Nat), l.length ≤ n → (chunks l).flatten = l := by
    intro n
    induction n with
    | zero =>
      intro l hl
      have : l = [] := List.length_eq_zero.mp (Nat.le_zero.mp hl)
      subst this
      rfl
    | succ n ih =>
      intro l hl
      cases l with
      | nil => rfl
      | cons b t =>
        rw [chunks_cons, List.flatten_cons,
          ih ((b :: t).drop CHUNK_SIZE)
            (by
              simp only [List.length_drop, List.length_cons]
              simp only [List.length_cons] at hl
              omega),
          List.take_append_drop]
  exact key l.length l le_rfl

theorem chunks_length (l : List Nat) :
    (chunks l).length = (l.length + (CHUNK_SIZE - 1)) / CHUNK_SIZE := by
  have hC : CHUNK_SIZE = 512 := rfl
  have h := congrArg List.length (chunks_sizes l)
  simp only [List.length_map, List.length_append, List.length_replicate] at h
  rw [h]
  by_cases h0 : l.length % CHUNK_SIZE = 0
  · rw [if_pos h0]
    simp only [List.length_nil]
    rw [hC] at h0 ⊢
    omega
  · rw [if_neg h0]
    simp only [List.length_cons, List.length_nil]
    rw [hC] at h0 ⊢
    omega

theorem chunks_dropLast_length (l : List Nat) :
    ∀ c ∈ (chunks l).dropLast, c.length = CHUNK_SIZE := by
  intro c hc
  have hmem : c.length ∈ ((chunks l).map List.length).dropLast := by
    rw [← List.map_dropLast]
    exact List.mem_map_of_mem List.length hc
  rw [chunks_sizes l] at hmem
  by_cases h0 : l.length % CHUNK_SIZE = 0
  · rw [if_pos h0, List.append_nil] at hmem
    rcases Nat.eq_zero_or_pos (l.length / CHUNK_SIZE) with hk | hk
    · rw [hk] at hmem
      simp at hmem
    · obtain ⟨j, hj⟩ : ∃ j, l.length / CHUNK_SIZE = j + 1 := ⟨l.length / CHUNK_SIZE - 1, by omega⟩
      rw [hj, List.replicate_succ', List.dropLast_concat] at hmem
      exact List.eq_of_mem_replicate hmem
  · rw [if_neg h0, List.dropLast_concat] at hmem
    exact List.eq_of_mem_replicate hmem

theorem chunks_getLast (l : List Nat) (h : l ≠ []) :
    ∃ last, (chunks l).getLast? = some last ∧
      last.length =
        if l.length % CHUNK_SIZE = 0 then CHUNK_SIZE else l.length % CHUNK_SIZE := by
  have hC : CHUNK_SIZE = 512 := rfl
  have hlen : 0 < l.length := List.length_pos.mpr h
  by_cases h0 : l.length % CHUNK_SIZE = 0
  · have hk : 0 < l.length / CHUNK_SIZE := by
      rw [hC] at h0 ⊢
      omega
    obtain ⟨j, hj⟩ : ∃ j, l.length / CHUNK_SIZE = j + 1 := ⟨l.length / CHUNK_SIZE - 1, by omega⟩
    have hmap : ((chunks l).map List.length).getLast? = some CHUNK_SIZE := by
      rw [chunks_sizes l, if_pos h0, List.append_nil, hj, List.replicate_succ',
        List.getLast?_concat]
    rw [List.getLast?_map] at hmap
    obtain ⟨last, hl1, hl2⟩ := Option.map_eq_some'.mp hmap
    exact ⟨last, hl1, by rw [if_pos h0]; exact hl2⟩
  · have hmap : ((chunks l).map List.length).getLast? = some (l.length % CHUNK_SIZE) := by
      rw [chunks_sizes l, if_neg h0, List.getLast?_concat]
    rw [List.getLast?_map] at hmap
    obtain ⟨last, hl1, hl2⟩ := Option.map_eq_some'.mp hmap
    exact ⟨last, hl1, by rw [if_neg h0]; exact hl2⟩

theorem load_loop_aux_spec (env : Nat → Completion) :
    ∀ fuel k (data : List Nat), data.length ≤ fuel →
      load_loop_aux env fuel k data =
        (chunks data,
         (List.range (chunks data).length).map fun j => bulk_out_run (env (k + j))) := by
  intro fuel
  induction fuel with
  | zero =>
    intro k data h
    have : data = [] := List.length_eq_zero.mp (Nat.le_zero.mp h)
    subst this
    simp [load_loop_aux, chunks, chunksAux]
  | succ fuel ih =>
    intro k data h
    cases data with
    | nil => simp [load_loop_aux, chunks, chunksAux]
    | cons b t =>
      have hC : 0 < CHUNK_SIZE := by decide
      simp only [load_loop_aux]
      rw [ih (k + 1) ((b :: t).drop CHUNK_SIZE)
        (by
          simp only [List.length_drop, List.length_cons]
          simp only [List.length_cons] at h
          omega)]
      rw [chunks_cons]
      simp only [Prod.mk.injEq, List.length_cons, true_and]
      rw [List.range_succ_eq_map, List.map_cons, List.map_map, Nat.add_zero]
      congr 1
      apply List.map_congr_left
      intro j hj
      simp only [Function.comp_apply]
      congr 2
      omega

theorem load_loop_fst (env : Nat → Completion) (k : Nat) (data : List Nat) :
    (load_loop env k data).1 = chunks data := by
  rw [load_loop, load_loop_aux_spec env data.length k data le_rfl]

theorem load_loop_snd (env : Nat → Completion) (k : Nat) (data : List Nat) :
    (load_loop env k data).2 =
      (List.range (chunks data).length).map fun j => bulk_out_run (env (k + j)) := by
  rw [load_loop, load_loop_aux_spec env data.length k data le_rfl]

theorem main_session_head (env : Nat → Completion) (cmd : Cmd) :
    (main_session env cmd).1.head? =
      some (Transfer.controlIn (cmd_in_setup 32 EP0_GET_CPU_INFO 0)) := by
  unfold main_session
  cases hd : dev_info (env 0) with
  | none => rfl
  | some x => cases cmd <;> rfl

theorem main_session_rom (env : Nat → Completion) (h : dev_info (env 0) ≠ none) :
    main_session env Cmd.rom =
      ([Transfer.controlIn (cmd_in_setup 32 EP0_GET_CPU_INFO 0),
        Transfer.controlOut (cmd_out_setup EP0_PROG_START MASK_ROM_BASE)],
       [cmd_out_run (env 1)]) := by
  unfold main_session
  cases hd : dev_info (env 0) with
  | none => exact absurd hd h
  | some x => rfl

theorem main_session_run (env : Nat → Completion) (space : Space) (file : List Nat)
    (h : dev_info (env 0) ≠ none) :
    main_session env (Cmd.run space file) =
      (Transfer.controlIn (cmd_in_setup 32 EP0_GET_CPU_INFO 0) ::
         Transfer.controlOut (cmd_out_setup EP0_SET_DATA_ADDRESS (run_addr space)) ::
         ((chunks file).map Transfer.bulkOut ++
           [Transfer.controlOut (cmd_out_setup EP0_PROG_START (run_addr space))]),
       cmd_out_run (env 1) ::
         (((List.range (chunks file).length).map fun j => bulk_out_run (env (2 + j))) ++
           [cmd_out_run (env (2 + (chunks file).length))])) := by
  unfold main_session
  cases hd : dev_info (env 0) with
  | none => exact absurd hd h
  | some x =>
    simp only [load_loop_fst, load_loop_snd]

theorem dev_info_untouched (c : Completion)
    (h : TRANSFER_TIMEOUT < c.time ∨ c.status ≠ none) :
    dev_info c = some (List.replicate 32 0) := by
  unfold dev_info cmd_in_run
  by_cases ht : c.time ≤ TRANSFER_TIMEOUT
  · have hs : c.status ≠ none := by
      rcases h with h | h
      · exact absurd ht (by omega)
      · exact h
    rw [if_pos ht]
    cases hst : c.status with
    | none => exact absurd hst hs
    | some e => exact utf8Decode_replicate_zero 32
  · rw [if_neg ht]
    exact utf8Decode_replicate_zero 32

theorem dev_info_instant : dev_info ⟨0, none, []⟩ = some (List.replicate 32 0) := by
  unfold dev_info cmd_in_run
  norm_num
  exact utf8Decode_replicate_zero 32

theorem claim_interface_loop_head (claim : Nat → Bool) (t x : Nat)
    (h : (claim_interface_loop claim t).1.head? = some x) : x = t := by
  unfold claim_interface_loop at h
  by_cases ht : t ≤ CLAIM_INTERFACE_TIMEOUT
  · rw [if_pos ht] at h
    by_cases hc : claim t = true
    · rw [if_pos hc] at h
      simp at h
      exact h.symm
    · rw [if_neg hc] at h
      simp at h
      exact h.symm
  · rw [if_neg ht] at h
    simp at h

theorem claim_interface_loop_fail (claim : Nat → Bool) (hf : ∀ u, claim u = false) :
    ∀ n t, CLAIM_INTERFACE_TIMEOUT + CLAIM_INTERFACE_PERIOD - t ≤ n →
      t ≤ CLAIM_INTERFACE_TIMEOUT + CLAIM_INTERFACE_PERIOD →
      ∃ T, (claim_interface_loop claim t).2 = Sum.inr T ∧
        CLAIM_INTERFACE_TIMEOUT < T ∧
        T ≤ CLAIM_INTERFACE_TIMEOUT + CLAIM_INTERFACE_PERIOD := by
  have hP : 0 < CLAIM_INTERFACE_PERIOD := by decide
  intro n
  induction n with
  | zero =>
    intro t h1 h2
    have ht : ¬ t ≤ CLAIM_INTERFACE_TIMEOUT := by omega
    unfold claim_interface_loop
    rw [if_neg ht]
    exact ⟨t, rfl, by omega, h2⟩
  | succ n ih =>
    intro t h1 h2
    unfold claim_interface_loop
    by_cases ht : t ≤ CLAIM_INTERFACE_TIMEOUT
    · rw [if_pos ht, hf t]
      simp only [Bool.false_eq_true, if_false]
      exact ih (t + CLAIM_INTERFACE_PERIOD) (by omega) (by omega)
    · rw [if_neg ht]
      exact ⟨t, rfl, by omega, h2⟩

theorem claim_interface_loop_step (claim : Nat → Bool) :
    ∀ n t, CLAIM_INTERFACE_TIMEOUT + CLAIM_INTERFACE_PERIOD - t ≤ n →
      ∀ i a b, (claim_interface_loop claim t).1[i]? = some a →
        (claim_interface_loop claim t).1[i + 1]? = some b →
        b = a + CLAIM_INTERFACE_PERIOD := by
  have hP : 0 < CLAIM_INTERFACE_PERIOD := by decide
  intro n
  induction n with
  | zero =>
    intro t h1 i a b ha hb
    have ht : ¬ t ≤ CLAIM_INTERFACE_TIMEOUT := by omega
    unfold claim_interface_loop at ha
    rw [if_neg ht] at ha
    simp at ha
  | succ n ih =>
    intro t h1 i a b ha hb
    by_cases ht : t ≤ CLAIM_INTERFACE_TIMEOUT
    · unfold claim_interface_loop at ha hb
      rw [if_pos ht] at ha hb
      by_cases hc : claim t = true
      · rw [if_pos hc] at ha hb
        simp at hb
      · rw [if_neg hc] at ha hb
        cases i with
        | zero =>
          simp at ha hb
          have hhead :
              (claim_interface_loop claim (t + CLAIM_INTERFACE_PERIOD)).1.head? = some b := by
            rw [List.head?_eq_getElem?]
            exact hb
          have := claim_interface_loop_head claim (t + CLAIM_INTERFACE_PERIOD) b hhead
          omega
        | succ j =>
          simp at ha hb
          exact ih (t + CLAIM_INTERFACE_PERIOD) (by omega) j a b ha hb
    · unfold claim_interface_loop at ha
      rw [if_neg ht] at ha
      simp at ha

theorem claim_interface_loop_succ (claim : Nat → Bool) (t : Nat)
    (ht : t ≤ CLAIM_INTERFACE_TIMEOUT) (hc : claim t = true) :
    claim_interface_loop claim t = ([t], Sum.inl t) := by
  unfold claim_interface_loop
  rw [if_pos ht, if_pos hc]

theorem shiftLeft_lor_split (a b : Nat) (hb : b < 65536) :
    (a <<< 16) ||| b = a * 65536 + b := by
  have hb2 : b < 2 ^ 16 := by omega
  apply Nat.eq_of_testBit_eq
  intro i
  rw [Nat.testBit_or, Nat.testBit_shiftLeft,
    show a * 65536 = 2 ^ 16 * a by omega,
    Nat.testBit_mul_pow_two_add a hb2 i]
  by_cases hi : 16 ≤ i
  · have hbi : b.testBit i = false :=
      Nat.testBit_lt_two_pow
        (Nat.lt_of_lt_of_le hb2 (Nat.pow_le_pow_right (by norm_num) hi))
    rw [if_neg (by omega), hbi]
    simp [hi]
  · rw [if_pos (by omega)]
    simp [hi]

/-- C1: for every control-in, control-out, or bulk-out transfer, the timed
wrapper races the transfer against the fixed 5-second deadline; whenever the
transfer resolves strictly before the deadline the wrapper returns the
transfer's own result — its data (written into the buffer) on success, or
its device-reported status mapped to an I/O error — and never a timeout
error; whenever the deadline elapses strictly first the wrapper returns the
`TimedOut` error, so no transfer blocks indefinitely. -/
theorem c1_timed_transfer (c : Completion) (buf : List Nat) :
    (c.time < TRANSFER_TIMEOUT →
      (c.status = none → cmd_out_run c = Except.ok () ∧ bulk_out_run c = Except.ok ()) ∧
      (∀ e, c.status = some e →
        cmd_out_run c = Except.error (IoError.other e) ∧
        bulk_out_run c = Except.error (IoError.other e) ∧
        cmd_in_run c buf = some (buf, Except.error (IoError.other e))) ∧
      (c.status = none → c.data.length ≤ buf.length →
        cmd_in_run c buf =
          some (c.data ++ buf.drop c.data.length, Except.ok c.data.length)) ∧
      cmd_out_run c ≠ Except.error IoError.timedOut ∧
      bulk_out_run c ≠ Except.error IoError.timedOut ∧
      (∀ r, cmd_in_run c buf = some r → r.2 ≠ Except.error IoError.timedOut)) ∧
    (TRANSFER_TIMEOUT < c.time →
      cmd_out_run c = Except.error IoError.timedOut ∧
      bulk_out_run c = Except.error IoError.timedOut ∧
      cmd_in_run c buf = some (buf, Except.error IoError.timedOut)) := by
  unfold cmd_out_run bulk_out_run cmd_in_run
  constructor
  · intro hlt
    have ht : c.time ≤ TRANSFER_TIMEOUT := Nat.le_of_lt hlt
    simp only [if_pos ht]
    cases hst : c.status with
    | none =>
      refine ⟨fun _ => ⟨rfl, rfl⟩, ?_, ?_, ?_, ?_, ?_⟩
      · intro e he
        cases he
      · intro _ hlen
        rw [if_pos hlen]
      · simp
      · simp
      · intro r hr
        by_cases hlen : c.data.length ≤ buf.length
        · rw [if_pos hlen] at hr
          cases hr
          simp
        · rw [if_neg hlen] at hr
          cases hr
    | some e =>
      refine ⟨?_, ?_, ?_, ?_, ?_, ?_⟩
      · intro he
        cases he
      · intro f hf
        cases hf
        exact ⟨rfl, rfl, rfl⟩
      · intro he
        cases he
      · simp
      · simp
      · intro r hr
        cases hr
        simp
  · intro hgt
    have ht : ¬ c.time ≤ TRANSFER_TIMEOUT := by omega
    simp only [if_neg ht]
    simp

theorem c1_timed_transfer_witness :
    cmd_out_run ⟨1000, none, []⟩ = Except.ok () ∧
    cmd_out_run ⟨6000000, none, []⟩ = Except.error IoError.timedOut ∧
    cmd_in_run ⟨1000, some 7, []⟩ [0, 0] = some ([0, 0], Except.error (IoError.other 7)) :=
  ⟨(((c1_timed_transfer ⟨1000, none, []⟩ []).1 (by decide)).1 rfl).1,
   (((c1_timed_transfer ⟨6000000, none, []⟩ []).2 (by decide))).1,
   ((((c1_timed_transfer ⟨1000, some 7, []⟩ [0, 0]).1 (by decide)).2.1 7 rfl)).2.2⟩

/-- C2: for an input byte source `l` of length `L`, the image-loading loop
issues exactly `ceil(L / 512) = (L + 511) / 512` bulk-out chunks (zero when
`L = 0`), every chunk before the last carries exactly 512 bytes, the last
carries `L mod 512` bytes (or 512 when `L` is a positive exact multiple of
512), the chunks concatenate back to the source in stream order, and the
loop terminates with no transfer on the empty source (a read of zero
bytes). -/
theorem c2_chunk_loop (l : List Nat) :
    (chunks l).length = (l.length + (CHUNK_SIZE - 1)) / CHUNK_SIZE ∧
    (∀ c ∈ (chunks l).dropLast, c.length = CHUNK_SIZE) ∧
    (l ≠ [] → ∃ last, (chunks l).getLast? = some last ∧
      last.length =
        if l.length % CHUNK_SIZE = 0 then CHUNK_SIZE else l.length % CHUNK_SIZE) ∧
    (chunks l).flatten = l ∧
    chunks [] = [] :=
  ⟨chunks_length l, chunks_dropLast_length l, chunks_getLast l, chunks_flatten l, rfl⟩

theorem c2_chunk_loop_witness :
    ∃ last, (chunks (List.replicate 5 1)).getLast? = some last ∧
      last.length =
        if (List.replicate 5 1).length % CHUNK_SIZE = 0 then CHUNK_SIZE
        else (List.replicate 5 1).length % CHUNK_SIZE :=
  (c2_chunk_loop (List.replicate 5 1)).2.2.1 (by decide)

/-- C3: for every 32-bit parameter `p`, both the control-in and control-out
encoders pack `p` as `value = p >> 16` and `index = p & 0xFFFF`, so
`(value << 16) | index` reconstructs `p` exactly; the `length` field equals
the caller-supplied response buffer size for in-transfers (the program's
buffers fit in a `u16`), and the out-transfer carries no payload. -/
theorem c3_param_packing (p len req : Nat) (hp : p < 4294967296) (hlen : len ≤ 65535) :
    (cmd_in_setup len req p).value = p >>> 16 ∧
    (cmd_in_setup len req p).index = p % 65536 ∧
    (cmd_out_setup req p).value = p >>> 16 ∧
    (cmd_out_setup req p).index = p % 65536 ∧
    ((cmd_in_setup len req p).value <<< 16) ||| (cmd_in_setup len req p).index = p ∧
    ((cmd_out_setup req p).value <<< 16) ||| (cmd_out_setup req p).index = p ∧
    (cmd_in_setup len req p).length = len ∧
    (cmd_out_setup req p).data = [] := by
  have hv : (p >>> 16) % 65536 = p >>> 16 := by
    rw [Nat.shiftRight_eq_div_pow]
    have hd : p / 2 ^ 16 < 65536 := by
      have : (2 : Nat) ^ 16 = 65536 := by norm_num
      rw [this]
      omega
    exact Nat.mod_eq_of_lt hd
  have hrecomb : (((p >>> 16) % 65536) <<< 16) ||| (p % 65536) = p := by
    rw [hv, Nat.shiftRight_eq_div_pow]
    have h16 : (2 : Nat) ^ 16 = 65536 := by norm_num
    rw [h16, shiftLeft_lor_split (p / 65536) (p % 65536) (Nat.mod_lt _ (by norm_num))]
    omega
  exact ⟨hv, rfl, hv, rfl, hrecomb, hrecomb,
    Nat.mod_eq_of_lt (by omega), rfl⟩

theorem c3_param_packing_witness :
    ((cmd_in_setup 32 EP0_SET_DATA_ADDRESS 0x80360000).value <<< 16) |||
        (cmd_in_setup 32 EP0_SET_DATA_ADDRESS 0x80360000).index = 0x80360000 ∧
    (cmd_in_setup 32 EP0_SET_DATA_ADDRESS 0x80360000).length = 32 :=
  ⟨(c3_param_packing 0x80360000 32 EP0_SET_DATA_ADDRESS (by decide) (by decide)).2.2.2.2.1,
   (c3_param_packing 0x80360000 32 EP0_SET_DATA_ADDRESS (by decide)
      (by decide)).2.2.2.2.2.2.1⟩

/-- C4: when every claim attempt fails, `claim_interface` sleeps a fixed
200-microsecond period between consecutive attempts (no backoff) and returns
the claim-failure error only after the elapsed time since the first attempt
exceeds 1 second, and no later than 1 second plus one retry period; when an
attempt inside the window succeeds, the claimed interface is returned
immediately at that attempt. -/
theorem c4_claim_retry (claim : Nat → Bool) :
    ((∀ u, claim u = false) →
      ∃ T, (claim_interface claim).2 = Sum.inr T ∧
        CLAIM_INTERFACE_TIMEOUT < T ∧
        T ≤ CLAIM_INTERFACE_TIMEOUT + CLAIM_INTERFACE_PERIOD) ∧
    (∀ i a b, (claim_interface claim).1[i]? = some a →
      (claim_interface claim).1[i + 1]? = some b → b = a + CLAIM_INTERFACE_PERIOD) ∧
    (∀ t, t ≤ CLAIM_INTERFACE_TIMEOUT → claim t = true →
      claim_interface_loop claim t = ([t], Sum.inl t)) := by
  refine ⟨?_, ?_, ?_⟩
  · intro hf
    exact claim_interface_loop_fail claim hf
      (CLAIM_INTERFACE_TIMEOUT + CLAIM_INTERFACE_PERIOD) 0 (by omega) (by omega)
  · intro i a b ha hb
    exact claim_interface_loop_step claim
      (CLAIM_INTERFACE_TIMEOUT + CLAIM_INTERFACE_PERIOD) 0 (by omega) i a b ha hb
  · intro t ht hc
    exact claim_interface_loop_succ claim t ht hc

theorem c4_claim_retry_witness :
    (∃ T, (claim_interface (fun _ => false)).2 = Sum.inr T ∧
      CLAIM_INTERFACE_TIMEOUT < T ∧
      T ≤ CLAIM_INTERFACE_TIMEOUT + CLAIM_INTERFACE_PERIOD) ∧
    claim_interface_loop (fun _ => true) 0 = ([0], Sum.inl 0) :=
  ⟨(c4_claim_retry (fun _ => false)).1 (fun u => rfl),
   (c4_claim_retry (fun _ => true)).2.2 0 (by decide) rfl⟩

theorem main_session_none (env : Nat → Completion) (cmd : Cmd)
    (h : dev_info (env 0) = none) :
    main_session env cmd =
      ([Transfer.controlIn (cmd_in_setup 32 EP0_GET_CPU_INFO 0)], []) := by
  unfold main_session
  rw [h]

theorem chunks_replicate_pos (a m : Nat) (hm : 0 < m) :
    chunks (List.replicate m a) =
      List.replicate (min CHUNK_SIZE m) a ::
        chunks (List.replicate (m - CHUNK_SIZE) a) := by
  obtain ⟨k, rfl⟩ : ∃ k, m = k + 1 := ⟨m - 1, by omega⟩
  rw [List.replicate_succ, chunks_cons, ← List.replicate_succ]
  rw [List.take_replicate, List.drop_replicate]

theorem chunks_replicate_1536 (a : Nat) :
    chunks (List.replicate 1536 a) =
      [List.replicate 512 a, List.replicate 512 a, List.replicate 512 a] := by
  rw [chunks_replicate_pos a 1536 (by norm_num),
    show min CHUNK_SIZE 1536 = 512 from by decide,
    show (1536 : Nat) - CHUNK_SIZE = 1024 from by decide,
    chunks_replicate_pos a 1024 (by norm_num),
    show min CHUNK_SIZE 1024 = 512 from by decide,
    show (1024 : Nat) - CHUNK_SIZE = 512 from by decide,
    chunks_replicate_pos a 512 (by norm_num),
    show min CHUNK_SIZE 512 = 512 from by decide,
    show (512 : Nat) - CHUNK_SIZE = 0 from by decide]
  rfl

/-- C5: in every run session, a bulk-out data chunk can only appear in the
device-visible trace strictly after the `SetDataAddress` control transfer
carrying the selected target address; and for a 1536-byte file of repeated
`0xAA` with space `sram`, the full trace is exactly the `GetCpuInfo`
identity query, `SetDataAddress(SRAM_RUN_BASE)`, three bulk-out transfers of
512 bytes of `0xAA` each, then `ProgStart(SRAM_RUN_BASE)`. -/
theorem c5_run_ordering :
    (∀ (env : Nat → Completion) (space : Space) (file : List Nat) (i : Nat)
        (d : List Nat),
      ((main_session env (Cmd.run space file)).1)[i]? = some (Transfer.bulkOut d) →
      ∃ j, j < i ∧
        ((main_session env (Cmd.run space file)).1)[j]? =
          some (Transfer.controlOut
            (cmd_out_setup EP0_SET_DATA_ADDRESS (run_addr space)))) ∧
    (main_session (fun _ => ⟨0, none, []⟩)
        (Cmd.run Space.sram (List.replicate 1536 0xAA))).1 =
      [Transfer.controlIn (cmd_in_setup 32 EP0_GET_CPU_INFO 0),
       Transfer.controlOut (cmd_out_setup EP0_SET_DATA_ADDRESS SRAM_RUN_BASE),
       Transfer.bulkOut (List.replicate 512 0xAA),
       Transfer.bulkOut (List.replicate 512 0xAA),
       Transfer.bulkOut (List.replicate 512 0xAA),
       Transfer.controlOut (cmd_out_setup EP0_PROG_START SRAM_RUN_BASE)] := by
  constructor
  · intro env space file i d hi
    cases hd : dev_info (env 0) with
    | none =>
      rw [main_session_none env _ hd] at hi
      cases i with
      | zero => simp at hi
      | succ j => simp at hi
    | some x =>
      have hne : dev_info (env 0) ≠ none := by rw [hd]; simp
      rw [main_session_run env space file hne] at hi ⊢
      cases i with
      | zero => simp at hi
      | succ j =>
        cases j with
        | zero => simp at hi
        | succ k =>
          refine ⟨1, by omega, ?_⟩
          simp
  · rw [main_session_run (fun _ => ⟨0, none, []⟩) Space.sram (List.replicate 1536 0xAA)
      (by simp [dev_info_instant])]
    rw [chunks_replicate_1536,
      show run_addr Space.sram = SRAM_RUN_BASE from rfl]
    rfl

theorem c5_run_ordering_witness :
    ∃ j, j < 2 ∧
      ((main_session (fun _ => ⟨0, none, []⟩)
          (Cmd.run Space.sram (List.replicate 1536 0xAA))).1)[j]? =
        some (Transfer.controlOut
          (cmd_out_setup EP0_SET_DATA_ADDRESS (run_addr Space.sram))) :=
  c5_run_ordering.1 (fun _ => ⟨0, none, []⟩) Space.sram (List.replicate 1536 0xAA) 2
    (List.replicate 512 0xAA)
    (by
      rw [main_session_run (fun _ => ⟨0, none, []⟩) Space.sram (List.replicate 1536 0xAA)
        (by simp [dev_info_instant])]
      rw [chunks_replicate_1536]
      rfl)

/-- C6: the `GetCpuInfo` identity query is always the first device-visible
transfer of the session, regardless of the requested operation; and when the
identity query does not abort the process, the rom operation's trace is
exactly `GetCpuInfo` followed by `ProgStart(MASK_ROM_BASE)`, with no
`SetDataAddress` and no bulk-out transfer anywhere in it. -/
theorem c6_identity_first :
    (∀ (env : Nat → Completion) (cmd : Cmd),
      (main_session env cmd).1.head? =
        some (Transfer.controlIn (cmd_in_setup 32 EP0_GET_CPU_INFO 0))) ∧
    (∀ env : Nat → Completion, dev_info (env 0) ≠ none →
      (main_session env Cmd.rom).1 =
        [Transfer.controlIn (cmd_in_setup 32 EP0_GET_CPU_INFO 0),
         Transfer.controlOut (cmd_out_setup EP0_PROG_START MASK_ROM_BASE)] ∧
      (∀ t ∈ (main_session env Cmd.rom).1,
        (∀ d, t ≠ Transfer.bulkOut d) ∧
        (∀ p, t ≠ Transfer.controlOut (cmd_out_setup EP0_SET_DATA_ADDRESS p)))) := by
  constructor
  · exact main_session_head
  · intro env h
    have hr := main_session_rom env h
    constructor
    · rw [hr]
    · intro t ht
      rw [hr] at ht
      simp only [List.mem_cons, List.mem_singleton, List.not_mem_nil, or_false] at ht
      rcases ht with h1 | h2
      · subst h1
        constructor
        · intro d hd
          cases hd
        · intro p hp
          cases hp
      · subst h2
        constructor
        · intro d hd
          cases hd
        · intro p hp
          injection hp with hco
          have hreq := congrArg ControlOut.request hco
          simp [cmd_out_setup, EP0_PROG_START, EP0_SET_DATA_ADDRESS] at hreq

theorem c6_identity_first_witness :
    (main_session (fun _ => ⟨0, none, []⟩) Cmd.rom).1 =
      [Transfer.controlIn (cmd_in_setup 32 EP0_GET_CPU_INFO 0),
       Transfer.controlOut (cmd_out_setup EP0_PROG_START MASK_ROM_BASE)] :=
  (c6_identity_first.2 (fun _ => ⟨0, none, []⟩) (by simp [dev_info_instant])).1

/-- C7: the results of the fire-and-forget transfers (`SetDataAddress`, the
bulk-out chunks, `ProgStart`) are computed by the protocol layer — a
late completion is reported as `TimedOut` and a device error status as an
I/O error — but the calling sequence never inspects them: the
device-visible trace of a run session is the same for every assignment of
outcomes to those transfers (the loop neither terminates early nor
retries), and the list of computed-and-discarded results is exactly the
per-transfer timed result. -/
theorem c7_fire_and_forget :
    (∀ (env env2 : Nat → Completion) (space : Space) (file : List Nat),
      env 0 = env2 0 →
      (main_session env (Cmd.run space file)).1 =
        (main_session env2 (Cmd.run space file)).1) ∧
    (∀ (env : Nat → Completion) (space : Space) (file : List Nat),
      dev_info (env 0) ≠ none →
      (main_session env (Cmd.run space file)).2 =
        cmd_out_run (env 1) ::
          (((List.range (chunks file).length).map fun j => bulk_out_run (env (2 + j))) ++
            [cmd_out_run (env (2 + (chunks file).length))])) ∧
    (∀ c : Completion, TRANSFER_TIMEOUT < c.time →
      cmd_out_run c = Except.error IoError.timedOut ∧
      bulk_out_run c = Except.error IoError.timedOut) ∧
    (∀ (c : Completion) (e : Nat), c.time ≤ TRANSFER_TIMEOUT → c.status = some e →
      cmd_out_run c = Except.error (IoError.other e) ∧
      bulk_out_run c = Except.error (IoError.other e)) := by
  refine ⟨?_, ?_, ?_, ?_⟩
  · intro env env2 space file h0
    cases hd : dev_info (env 0) with
    | none =>
      have hd2 : dev_info (env2 0) = none := by rw [← h0]; exact hd
      rw [main_session_none env _ hd, main_session_none env2 _ hd2]
    | some x =>
      have hne : dev_info (env 0) ≠ none := by rw [hd]; simp
      have hne2 : dev_info (env2 0) ≠ none := by rw [← h0, hd]; simp
      rw [main_session_run env space file hne, main_session_run env2 space file hne2]
  · intro env space file h
    rw [main_session_run env space file h]
  · intro c hgt
    unfold cmd_out_run bulk_out_run
    have ht : ¬ c.time ≤ TRANSFER_TIMEOUT := by omega
    simp only [if_neg ht]
    exact ⟨trivial, trivial⟩
  · intro c e ht hs
    unfold cmd_out_run bulk_out_run
    simp only [if_pos ht, hs]
    exact ⟨trivial, trivial⟩

theorem c7_fire_and_forget_witness :
    (main_session (fun _ => ⟨0, none, []⟩) (Cmd.run Space.sram [])).1 =
      (main_session (fun k => ⟨6000000 * k, if k = 0 then none else some k, []⟩)
        (Cmd.run Space.sram [])).1 :=
  c7_fire_and_forget.1 (fun _ => ⟨0, none, []⟩)
    (fun k => ⟨6000000 * k, if k = 0 then none else some k, []⟩)
    Space.sram [] (by norm_num)

/-- C9: when the `GetCpuInfo` control-in transfer itself times out or the
device reports an error status, `dev_info` does not abort: the 32-byte
zero-initialised buffer is never written, the UTF-8 decode of 32 NUL bytes
succeeds, the printed banner is 32 NUL characters, and the session proceeds
to the requested operation (shown for the rom operation, whose `ProgStart`
is still issued). -/
theorem c9_identity_failure_tolerated (env : Nat → Completion)
    (h : TRANSFER_TIMEOUT < (env 0).time ∨ (env 0).status ≠ none) :
    dev_info (env 0) = some (List.replicate 32 0) ∧
    (main_session env Cmd.rom).1 =
      [Transfer.controlIn (cmd_in_setup 32 EP0_GET_CPU_INFO 0),
       Transfer.controlOut (cmd_out_setup EP0_PROG_START MASK_ROM_BASE)] := by
  have hd := dev_info_untouched (env 0) h
  refine ⟨hd, ?_⟩
  rw [main_session_rom env (by rw [hd]; simp)]

theorem c9_identity_failure_tolerated_witness :
    dev_info ((fun _ => (⟨6000000, none, []⟩ : Completion)) 0) =
      some (List.replicate 32 0) :=
  (c9_identity_failure_tolerated (fun _ => ⟨6000000, none, []⟩)
    (Or.inl (by decide))).1

/-- C10: when a control-in transfer completes in time with success status
and a device response of `n` bytes, `n` at most the buffer length, `cmd_in`
overwrites exactly the first `n` bytes of the buffer with the response data
and leaves every byte from position `n` on unchanged (and reports `n` as the
number of bytes read). -/
theorem c10_cmd_in_frame (c : Completion) (buf : List Nat)
    (htime : c.time < TRANSFER_TIMEOUT) (hok : c.status = none)
    (hlen : c.data.length ≤ buf.length) :
    ∃ out, cmd_in_run c buf = some (out, Except.ok c.data.length) ∧
      out.length = buf.length ∧
      (∀ i, i < c.data.length → out[i]? = c.data[i]?) ∧
      (∀ i, c.data.length ≤ i → out[i]? = buf[i]?) := by
  refine ⟨c.data ++ buf.drop c.data.length, ?_, ?_, ?_, ?_⟩
  · unfold cmd_in_run
    rw [if_pos (Nat.le_of_lt htime), hok, if_pos hlen]
  · simp only [List.length_append, List.length_drop]
    omega
  · intro i hi
    rw [List.getElem?_append, if_pos hi]
  · intro i hi
    rw [List.getElem?_append_right hi, List.getElem?_drop]
    have he : c.data.length + (i - c.data.length) = i := by omega
    rw [he]

theorem c10_cmd_in_frame_witness :
    ∃ out, cmd_in_run ⟨0, none, [5, 6]⟩ [1, 2, 3, 4] =
        some (out, Except.ok (Completion.mk 0 none [5, 6]).data.length) ∧
      out.length = [1, 2, 3, 4].length ∧
      (∀ i, i < (Completion.mk 0 none [5, 6]).data.length →
        out[i]? = (Completion.mk 0 none [5, 6]).data[i]?) ∧
      (∀ i, (Completion.mk 0 none [5, 6]).data.length ≤ i →
        out[i]? = [1, 2, 3, 4][i]?) :=
  c10_cmd_in_frame ⟨0, none, [5, 6]⟩ [1, 2, 3, 4] (by decide) rfl (by decide)

/-- C8 counterexample: a successful `GetCpuInfo` response consisting of the
text `K230` followed by 28 trailing NUL padding bytes does NOT decode to the
expected text alone — the trailing NULs are kept in the decoded string — and
a response whose 28 trailing padding bytes hold the value `0x80` fails to
decode at all (`from_utf8` rejects it, so `unwrap` panics), so the decode is
not independent of the padding byte values. -/
theorem c8_decode_counterexample :
    utf8Decode ([0x4B, 0x32, 0x33, 0x30] ++ List.replicate 28 0) ≠
        some [0x4B, 0x32, 0x33, 0x30] ∧
    dev_info ⟨0, none, [0x4B, 0x32, 0x33, 0x30] ++ List.replicate 28 0⟩ ≠
        some [0x4B, 0x32, 0x33, 0x30] ∧
    utf8Decode ([0x4B, 0x32, 0x33, 0x30] ++ List.replicate 28 0x80) = none ∧
    dev_info ⟨0, none, [0x4B, 0x32, 0x33, 0x30] ++ List.replicate 28 0x80⟩ = none := by
  decide

/-- C8 (amended): for a successful `GetCpuInfo` query whose 32-byte response
is ASCII text followed by trailing NUL padding bytes, the decode step
succeeds and produces the expected text followed by the NUL padding (the
text is recovered as a prefix of the printed banner, which always consists
of the text padded with NULs to 32 characters); a response that is not
decodable as UTF-8 — for example one whose padding bytes hold `0x80` — is a
terminal error (`unwrap` panic). -/
theorem c8_decode_padding (text : List Nat) (htext : ∀ b ∈ text, b ≤ 0x7F) :
    (∀ k, utf8Decode (text ++ List.replicate k 0) =
      some (text ++ List.replicate k 0)) ∧
    (∀ rest, utf8Decode (text ++ 0x80 :: rest) = none) ∧
    (∀ (c : Completion) (k : Nat), c.time ≤ TRANSFER_TIMEOUT → c.status = none →
      c.data = text ++ List.replicate k 0 → c.data.length ≤ 32 →
      dev_info c = some (text ++ List.replicate (32 - text.length) 0)) ∧
    (∀ (c : Completion) (rest : List Nat), c.time ≤ TRANSFER_TIMEOUT →
      c.status = none → c.data = text ++ 0x80 :: rest → c.data.length ≤ 32 →
      dev_info c = none) := by
  refine ⟨?_, ?_, ?_, ?_⟩
  · intro k
    rw [utf8Decode_ascii_append htext, utf8Decode_replicate_zero]
    rfl
  · intro rest
    rw [utf8Decode_ascii_append htext, utf8Decode_cont_head]
    rfl
  · intro c k htime hst hdata hlen
    have h1 : cmd_in_run c (List.replicate 32 0) =
        some (c.data ++ (List.replicate 32 0).drop c.data.length,
          Except.ok c.data.length) := by
      unfold cmd_in_run
      rw [if_pos htime, hst,
        if_pos (show c.data.length ≤ (List.replicate 32 0).length by
          simpa using hlen)]
    unfold dev_info
    rw [h1]
    show utf8Decode (c.data ++ (List.replicate 32 0).drop c.data.length) = _
    rw [List.drop_replicate, hdata, List.append_assoc, ← List.replicate_add]
    rw [utf8Decode_ascii_append htext, utf8Decode_replicate_zero]
    have hk : k + (32 - (text ++ List.replicate k 0).length) = 32 - text.length := by
      rw [hdata] at hlen
      simp only [List.length_append, List.length_replicate] at hlen ⊢
      omega
    rw [hk]
    rfl
  · intro c rest htime hst hdata hlen
    have h1 : cmd_in_run c (List.replicate 32 0) =
        some (c.data ++ (List.replicate 32 0).drop c.data.length,
          Except.ok c.data.length) := by
      unfold cmd_in_run
      rw [if_pos htime, hst,
        if_pos (show c.data.length ≤ (List.replicate 32 0).length by
          simpa using hlen)]
    unfold dev_info
    rw [h1]
    show utf8Decode (c.data ++ (List.replicate 32 0).drop c.data.length) = _
    rw [hdata, List.append_assoc, List.cons_append]
    rw [utf8Decode_ascii_append htext, utf8Decode_cont_head]
    rfl

theorem c8_decode_padding_witness :
    utf8Decode ([0x4B] ++ List.replicate 3 0) = some ([0x4B] ++ List.replicate 3 0) ∧
    dev_info ⟨0, none, [0x4B] ++ List.replicate 3 0⟩ =
      some ([0x4B] ++ List.replicate (32 - [0x4B].length) 0) :=
  ⟨(c8_decode_padding [0x4B] (by decide)).1 3,
   (c8_decode_padding [0x4B] (by decide)).2.2.1 ⟨0, none, [0x4B] ++ List.replicate 3 0⟩ 3
     (by decide) rfl rfl (by decide)⟩

end Kendryte
